import Mathlib

set_option autoImplicit false

namespace DjangoPlugin

/-
Verification of the manager/queryset synthesis plugin
(`mypy_django_plugin/transformers/managers.py`) and the request-user
narrowing transform (`mypy_django_plugin/transformers/request.py`)
against their natural-language specification.

The mypy data model is shallowly embedded: classes become `TypeInfo`
records, symbol tables become association lists, the semantic analyzer's
mutable state (modules, progress/deferred flags, plugin metadata) becomes
an explicit `SemanalState` threaded through the entry points, and Python
exceptions become `Except PluginExc` results.  The plugin only ever builds
instance types with at most one type argument and unions of exactly two
members, so `MType` is restricted to those shapes.
-/

/-- mypy types, restricted to the shapes this plugin builds or inspects.
`inst0 f n` is `Instance(typeinfo, [])` and `inst1 f n a` is
`Instance(typeinfo, [a])`, carrying the class's fullname and short name;
the plugin never passes more than one type argument.  `union` is
`UnionType([a, b])` (always two members in this code). -/
inductive MType where
  | anyUnannotated
  | anyExplicit
  | inst0 (fullname : String) (name : String)
  | inst1 (fullname : String) (name : String) (arg : MType)
  | union (a : MType) (b : MType)
  deriving Repr, DecidableEq

/-- mypy `UnionType.__eq__` compares the member sets, not the member lists;
for the two-member unions this code builds that is order-insensitive
pair equality.  All other types compare structurally. -/
def eqAsMypy : MType → MType → Bool
  | .union a b, .union c d => (a == c && b == d) || (a == d && b == c)
  | a, b => a == b

/-- A `FuncDef` node: a function declaration.  `bodyHasUnresolved` records
whether the body still references not-yet-resolved names (which makes a
copy of the method raise the incomplete-definition condition). -/
structure FuncDefM where
  name : String
  fullname : String
  selfType : MType
  bodyHasUnresolved : Bool
  deriving Repr, DecidableEq

/-- A member of a class body's symbol table: a `FuncDef` or anything else
(`Var`, `Decorator`, ...).  `iter_all_custom_queryset_methods` only cares
whether the node is a `FuncDef`. -/
inductive MemberNode where
  | funcDef (f : FuncDefM)
  | otherMember (fullname : String)
  deriving Repr, DecidableEq

/-- One entry of a class's method resolution order: the ancestor class's
fullname together with its own member table. -/
structure MroEntry where
  fullname : String
  names : List (String × MemberNode)
  deriving Repr, DecidableEq

/-- A mypy `TypeInfo`: a class symbol.  `mro` starts with the class itself. -/
structure TypeInfo where
  name : String
  fullname : String
  bases : List MType
  names : List (String × MemberNode)
  mro : List MroEntry
  deriving Repr, DecidableEq

/-- mypy `TypeInfo.has_base`: whether a class with the given fullname
appears in the method resolution order. -/
def TypeInfo.has_base (i : TypeInfo) (fullname : String) : Bool :=
  i.mro.any (fun e => e.fullname = fullname)

/-- The node held by a module-level symbol table entry. -/
inductive SymNode where
  | typeInfo (info : TypeInfo)
  | placeholder (fullname : String)
  | funcDef (f : FuncDefM)
  | decorator (fullname : String)
  | overloadedFuncDef (fullname : String)
  | var (fullname : String)
  | noNode
  deriving Repr, DecidableEq

/-- `SymbolTableNode.fullname`: the node's fullname, or `none` when the
entry has no node. -/
def symNodeFullname : SymNode → Option String
  | .typeInfo i => some i.fullname
  | .placeholder fn => some fn
  | .funcDef f => some f.fullname
  | .decorator fn => some fn
  | .overloadedFuncDef fn => some fn
  | .var fn => some fn
  | .noNode => none

def isPlaceholderSym : SymNode → Bool
  | .placeholder _ => true
  | _ => false

/-- mypy symbol kinds (`LDEF`/`GDEF`/`MDEF`). -/
inductive NodeKind where
  | ldef
  | gdef
  | mdef
  deriving Repr, DecidableEq

/-- A mypy `SymbolTableNode`. -/
structure SymbolTableNode where
  kind : NodeKind
  node : SymNode
  plugin_generated : Bool
  deriving Repr, DecidableEq

/-- A module with its top-level symbol table (`MypyFile.fullname` and
`MypyFile.names`). -/
structure ModuleSym where
  fullname : String
  names : List (String × SymbolTableNode)
  deriving Repr, DecidableEq

/-- Call argument expressions, restricted to the shapes the plugin
inspects (`NameExpr` and `StrExpr`). -/
inductive Expr where
  | nameExpr (name : String) (fullname : String)
  | strExpr (value : String)
  | otherExpr
  deriving Repr, DecidableEq

/-- The exceptions this code can raise.  `incompleteDefn` and
`boundNameNotFound` are the two designed control-flow signals
(`sem_helpers.IncompleteDefnException` / `sem_helpers.BoundNameNotFound`);
the rest are ordinary Python runtime errors reachable from this code. -/
inductive PluginExc where
  | incompleteDefn (msg : String)
  | boundNameNotFound (name : String)
  | assertionError
  | attributeError
  | valueError (msg : String)
  | keyError
  | nameError
  deriving Repr, DecidableEq

/-- Association-list update mirroring a Python dict assignment
`d[k] = v`: replace the binding in place, or append a fresh one. -/
def alUpdate {β : Type} : List (String × β) → String → β → List (String × β)
  | [], k, v => [(k, v)]
  | (k', v') :: t, k, v =>
      if k' = k then (k, v) :: t else (k', v') :: alUpdate t k v

/-- Association-list lookup mirroring `d.get(k)`. -/
def alLookup {β : Type} : List (String × β) → String → Option β
  | [], _ => none
  | (k', v') :: t, k => if k' = k then some v' else alLookup t k

/-- Number of bindings an association list holds for a key. -/
def alKeyCount {β : Type} : List (String × β) → String → Nat
  | [], _ => 0
  | (k', _) :: t, k => (if k' = k then 1 else 0) + alKeyCount t k

/-- Modelled from the spec: `mypy_django_plugin.lib.fullnames` is not in
the sources; this is the ORM's canonical base queryset class fullname
("the ORM's own base queryset class"). -/
def QUERYSET_CLASS_FULLNAME : String := "django.db.models.query.QuerySet"

/-- Modelled from the spec: the ORM's canonical manager base class
fullname; the source itself spells its module out as the literal
"django.db.models.manager". -/
def MANAGER_CLASS_FULLNAME : String := "django.db.models.manager.Manager"

/-- Modelled from the spec: the ORM's model base class fullname
("a class body whose declared bases include the ORM's model base class"). -/
def MODEL_CLASS_FULLNAME : String := "django.db.models.base.Model"

/-- The inputs a `DynamicClassDefContext` and the analyzer give the two
dynamic-class entry points.  `calleeExprNode` is `ctx.call.callee.expr.node`
(the two leading isinstance asserts on the callee shape hold because the
hook is keyed to these call shapes).  The two lookup fields are the
analyzer's answers to `lookup_qualified(args[0].name)` and
`lookup_fully_qualified_or_none(MANAGER_CLASS_FULLNAME)`.
`scopeClasses` is `semanal_api.scope.classes`, innermost class last. -/
structure DynamicClassDefCtx where
  name : String
  calleeExprNode : Option SymNode
  callArgs : List Expr
  lookupQueryset : Option SymbolTableNode
  lookupManager : Option SymbolTableNode
  scopeClasses : List TypeInfo

/-- `iter_all_custom_queryset_methods`, as a function of the queryset's
method resolution order: walk the mro, stop (break) at the ORM's base
queryset class, and yield every `FuncDef` member of the entries walked. -/
def iterCustomMethodsAux : List MroEntry → List (String × FuncDefM)
  | [] => []
  | e :: rest =>
      if e.fullname = QUERYSET_CLASS_FULLNAME then []
      else
        e.names.filterMap
            (fun p => match p.2 with
              | .funcDef f => some (p.1, f)
              | _ => none)
          ++ iterCustomMethodsAux rest

def iter_all_custom_queryset_methods (derived_queryset_info : TypeInfo) :
    List (String × FuncDefM) :=
  iterCustomMethodsAux derived_queryset_info.mro

/-- The spec's own wording of the method enumeration: "every method
defined on the queryset class or any of its ancestors up to (but
excluding) the ORM's own base queryset class". -/
def declaredCustomMethods (qs : TypeInfo) : List (String × FuncDefM) :=
  (qs.mro.takeWhile (fun e => e.fullname ≠ QUERYSET_CLASS_FULLNAME)).flatMap
    (fun e =>
      e.names.filterMap
        (fun p => match p.2 with
          | .funcDef f => some (p.1, f)
          | _ => none))

/-- `generate_from_queryset_name`. -/
def generate_from_queryset_name (base_manager_info queryset_info : TypeInfo) : String :=
  base_manager_info.name ++ "From" ++ queryset_info.name

/-- `resolve_callee_info_or_exception`.  A missing callee node makes the
`raise` statement fail while formatting its message (`callee_info.fullname`
on `None` is an `AttributeError`); a placeholder raises the
incomplete-definition exception; a non-class node trips the isinstance
assert. -/
def resolve_callee_info_or_exception (ctx : DynamicClassDefCtx) :
    Except PluginExc TypeInfo :=
  match ctx.calleeExprNode with
  | none => .error .attributeError
  | some (.placeholder fn) =>
      .error (.incompleteDefn
        ("Definition of base manager " ++ fn ++ " is incomplete."))
  | some (.typeInfo i) => .ok i
  | some _ => .error .assertionError

/-- `resolve_passed_queryset_info_or_exception`: the first positional
argument must be a `NameExpr`; a lookup that yields no symbol, a symbol
with no node, or a placeholder raises `BoundNameNotFound`. -/
def resolve_passed_queryset_info_or_exception (ctx : DynamicClassDefCtx) :
    Except PluginExc TypeInfo :=
  match ctx.callArgs.head? with
  | none => .error .keyError
  | some (.nameExpr _ fullname) =>
      match ctx.lookupQueryset with
      | none => .error (.boundNameNotFound fullname)
      | some sym =>
          match sym.node with
          | .noNode => .error (.boundNameNotFound fullname)
          | .placeholder _ => .error (.boundNameNotFound fullname)
          | .typeInfo i => .ok i
          | _ => .error .assertionError
  | some _ => .error .assertionError

/-- `resolve_django_manager_info_or_exception`: same tri-state handling
for the canonical manager base class, again raising `BoundNameNotFound`
for all three unready shapes. -/
def resolve_django_manager_info_or_exception (ctx : DynamicClassDefCtx) :
    Except PluginExc TypeInfo :=
  match ctx.lookupManager with
  | none => .error (.boundNameNotFound MANAGER_CLASS_FULLNAME)
  | some sym =>
      match sym.node with
      | .noNode => .error (.boundNameNotFound MANAGER_CLASS_FULLNAME)
      | .placeholder _ => .error (.boundNameNotFound MANAGER_CLASS_FULLNAME)
      | .typeInfo i => .ok i
      | _ => .error .assertionError

/-- Modelled from the spec: `helpers.new_typeinfo` is not in the sources.
It "build[s] a new class symbol" with the given short name, base list and
module; the fresh class starts with an empty member table and its
fullname is the module name dot the class name. -/
def new_typeinfo (name : String) (bases : List MType) (module_name : String) : TypeInfo :=
  { name := name
  , fullname := module_name ++ "." ++ name
  , bases := bases
  , names := []
  , mro := [⟨module_name ++ "." ++ name, []⟩] }

/-- `new_manager_typeinfo`: the from-queryset entry point's class builder;
base list is the callee manager instantiated with one unannotated `Any`. -/
def new_manager_typeinfo (cur_mod_id : String) (ctx : DynamicClassDefCtx)
    (callee_manager_info : TypeInfo) : TypeInfo :=
  new_typeinfo ctx.name
    [MType.inst1 callee_manager_info.fullname callee_manager_info.name .anyUnannotated]
    cur_mod_id

/-- mypy `fill_typevars` on a synthesized class: the generated classes
declare no type variables, so it is the plain instance type. -/
def fill_typevars (info : TypeInfo) : MType :=
  MType.inst0 info.fullname info.name

/-- `get_generated_manager_fullname`: an explicit second string argument
is used verbatim as the generated short name, otherwise
`<BaseManagerName>From<QuerysetName>`; the fullname lives in the
`django.db.models.manager` module. -/
def get_generated_manager_fullname (callArgs : List Expr)
    (base_manager_info queryset_info : TypeInfo) : Except PluginExc String :=
  if callArgs.length > 1 then
    match callArgs[1]? with
    | some (Expr.strExpr v) => .ok ("django.db.models.manager" ++ "." ++ v)
    | _ => .error .assertionError
  else
    .ok ("django.db.models.manager" ++ "."
      ++ (base_manager_info.name ++ "From" ++ queryset_info.name))

/-- The per-class plugin metadata: for each class fullname, its
`metadata['from_queryset_managers']` dict. -/
abbrev MetaStore := List (String × List (String × String))

/-- `get_generated_managers_metadata`: `setdefault` of the
`from_queryset_managers` dict on the given class. -/
def get_generated_managers_metadata (store : MetaStore)
    (django_manager_info : TypeInfo) : List (String × String) :=
  (alLookup store django_manager_info.fullname).getD []

/-- `record_new_manager_info_fullname_into_metadata`: compute the
deterministic key and upsert it into the base manager's metadata dict. -/
def record_new_manager_info_fullname_into_metadata (store : MetaStore)
    (callArgs : List Expr) (new_manager_fullname : String)
    (callee_manager_info queryset_info django_manager_info : TypeInfo) :
    Except PluginExc MetaStore :=
  match get_generated_manager_fullname callArgs callee_manager_info queryset_info with
  | .error e => .error e
  | .ok custom_manager_generated_fullname =>
      .ok (alUpdate store django_manager_info.fullname
        (alUpdate (get_generated_managers_metadata store django_manager_info)
          custom_manager_generated_fullname new_manager_fullname))

/-- Modelled from the spec: `sem_helpers.copy_method_or_incomplete_defn_exception`
is not in the sources.  It copies one queryset method onto the synthesized
class, "rebinding its self-parameter to the new class's own instantiated
type"; "copying a method whose body references not-yet-resolved names must
itself raise the incomplete-definition condition". -/
def copy_method_or_incomplete_defn_exception (self_type : MType)
    (new_method_name : String) (method_node : FuncDefM) :
    Except PluginExc FuncDefM :=
  if method_node.bodyHasUnresolved then
    .error (.incompleteDefn
      ("Method " ++ method_node.fullname ++ " is not ready to be copied."))
  else
    .ok { method_node with name := new_method_name, selfType := self_type }

/-- The entry points' copy loop: copy every enumerated queryset method
onto the synthesized class's member table, in order, stopping at the
first incomplete-definition exception. -/
def copy_methods_onto (self_type : MType) :
    List (String × FuncDefM) → List (String × MemberNode) →
    Except PluginExc (List (String × MemberNode))
  | [], acc => .ok acc
  | (name, f) :: rest, acc =>
      match copy_method_or_incomplete_defn_exception self_type name f with
      | .error e => .error e
      | .ok f2 => copy_methods_onto self_type rest (alUpdate acc name (.funcDef f2))

/-- The external mypy predicates `add_symbol_table_node` consults on its
redefinition branch (`is_valid_replacement`, `is_same_symbol`,
`set_original_def` live in `mypy.semanal`, outside this repository).
The plugin always calls with `context=None`, which never reaches them. -/
structure SemanalExternals where
  is_valid_replacement : SymbolTableNode → SymbolTableNode → Bool
  is_same_symbol : SymNode → SymNode → Bool
  set_original_def : SymNode → SymNode → Bool

/-- The semantic analyzer state this code reads and writes: the analyzed
modules and their global symbol tables, the current module id, the
scheduler's final-iteration flag, the deferral and progress flags, the
analyzer's `missing_names`, and the per-class plugin metadata store. -/
structure SemanalState where
  modules : List ModuleSym
  curModId : String
  finalIteration : Bool
  deferred : Bool
  progress : Bool
  missingNames : List String
  metadataStore : MetaStore
  ext : SemanalExternals

/-- The current module's global symbol table (`semanal_api.globals`,
which is also `current_symbol_table()` at a module-level call site). -/
def currentGlobals (st : SemanalState) : List (String × SymbolTableNode) :=
  ((st.modules.find? (fun m => m.fullname = st.curModId)).map ModuleSym.names).getD []

/-- Write a module's symbol table back into the modules map (a Python
dict update touches exactly the one entry). -/
def replaceModuleNames : List ModuleSym → String → List (String × SymbolTableNode) → List ModuleSym
  | [], _, _ => []
  | m :: rest, fn, t =>
      if m.fullname = fn then { m with names := t } :: rest
      else m :: replaceModuleNames rest fn t

def setCurrentGlobals (st : SemanalState) (t : List (String × SymbolTableNode)) : SemanalState :=
  { st with modules := replaceModuleNames st.modules st.curModId t }

/-- What one call to `add_symbol_table_node` does: the possibly updated
table, whether the symbol was actually added, and the side signals set on
the analyzer (progress, a deferral request, and the two redefinition
diagnostics, which are external calls recorded here as flags). -/
structure AddResult where
  table : List (String × SymbolTableNode)
  added : Bool
  progress : Bool
  deferCalled : Bool
  redefinitionAdded : Bool
  nameAlreadyDefinedError : Bool
  deriving Repr

def isRedefinableNode : SymNode → Bool
  | .funcDef _ => true
  | .decorator _ => true
  | .overloadedFuncDef _ => true
  | .typeInfo _ => true
  | _ => false

def isFuncOrDecoratorNode : SymNode → Bool
  | .funcDef _ => true
  | .decorator _ => true
  | _ => false

/-- The vendored `add_symbol_table_node` (lines 168-219 of managers.py).
With `context=None` the redefinition branch is skipped and the node is
added unconditionally unless the name is in `missing_names`; with a
context and an invalid replacement it runs the redefinition diagnostics
and refuses the add.  `api.add_redefinition` and `api.name_already_defined`
are external analyzer calls, recorded as result flags. -/
def add_symbol_table_node (ext : SemanalExternals)
    (names : List (String × SymbolTableNode)) (name : String)
    (symbol : SymbolTableNode) (context : Option Unit) (canDefer : Bool)
    (missing : List String) : AddResult :=
  let existing := alLookup names name
  let dc := isPlaceholderSym symbol.node && canDefer
  let redefCondition :=
    match existing, context with
    | some ex, some _ => !(ext.is_valid_replacement ex symbol)
    | _, _ => false
  if redefCondition then
    match symbol.node, existing with
    | .placeholder _, _ =>
        ⟨names, false, false, dc, false, false⟩
    | newNode, some ex =>
        if ext.is_same_symbol ex.node newNode then
          ⟨names, false, false, dc, false, false⟩
        else
          ⟨names, false, false, dc, isRedefinableNode newNode,
            !(isFuncOrDecoratorNode newNode && ext.set_original_def ex.node newNode)⟩
    | _, none =>
        ⟨names, false, false, dc, false, false⟩
  else if name ∈ missing ∨ "*" ∈ missing then
    ⟨names, false, false, dc, false, false⟩
  else
    ⟨alUpdate names name symbol, true, true, dc, false, false⟩

/-- The outcome of one run of a dynamic-class entry point: it completed,
it requested a deferral, or it let an exception propagate. -/
inductive EntryOutcome where
  | completed
  | deferredRun
  | raised (e : PluginExc)
  deriving Repr, DecidableEq

/-- The shared tail of both entry points (lines 150-165 and 272-289):
build the plugin-generated symbol table node, force-insert it with
`context=None`, on success repoint every same-fullname entry of every
other module at the new symbol, and if the insert did not happen and
this is not the final iteration, defer. -/
def publish_new_manager_sym (st : SemanalState) (name : String)
    (newSym : SymbolTableNode) : SemanalState × EntryOutcome :=
  let r := add_symbol_table_node st.ext (currentGlobals st) name newSym none true st.missingNames
  let st1 := setCurrentGlobals st r.table
  let st2 := { st1 with
    progress := st1.progress || r.progress
    deferred := st1.deferred || r.deferCalled }
  let st3 :=
    if r.added then
      { st2 with modules := st2.modules.map (fun m =>
          if m.fullname = st.curModId then m
          else { m with names := m.names.map (fun p =>
            if symNodeFullname p.2.node == symNodeFullname newSym.node
            then (p.1, newSym) else p) }) }
    else st2
  if !r.added && !st.finalIteration then
    ({ st3 with deferred := true }, .deferredRun)
  else
    (st3, .completed)

/-- The resolution stage of `create_new_manager_class_from_from_queryset_method`:
callee manager, passed queryset, canonical manager base class, in order. -/
def ep1_resolution (ctx : DynamicClassDefCtx) :
    Except PluginExc (TypeInfo × TypeInfo × TypeInfo) :=
  match resolve_callee_info_or_exception ctx with
  | .error e => .error e
  | .ok c =>
      match resolve_passed_queryset_info_or_exception ctx with
      | .error e => .error e
      | .ok q =>
          match resolve_django_manager_info_or_exception ctx with
          | .error e => .error e
          | .ok d => .ok (c, q, d)

/-- `create_new_manager_class_from_from_queryset_method`: resolve the three
classes (converting an incomplete-definition exception into a deferral
unless on the final iteration), build the virtual manager class, record
its fullname in the registry, copy the queryset's custom methods (again
deferring on an incomplete definition), then publish the symbol. -/
def create_new_manager_class_from_from_queryset_method
    (st : SemanalState) (ctx : DynamicClassDefCtx) : SemanalState × EntryOutcome :=
  match ep1_resolution ctx with
  | .error (.incompleteDefn m) =>
      if !st.finalIteration then ({ st with deferred := true }, .deferredRun)
      else (st, .raised (.incompleteDefn m))
  | .error e => (st, .raised e)
  | .ok (callee_manager_info, queryset_info, django_manager_info) =>
      let new_manager_info := new_manager_typeinfo st.curModId ctx callee_manager_info
      match record_new_manager_info_fullname_into_metadata st.metadataStore
        ctx.callArgs new_manager_info.fullname
        callee_manager_info queryset_info django_manager_info with
      | .error e => (st, .raised e)
      | .ok store1 =>
          let st1 := { st with metadataStore := store1 }
          let self_type := fill_typevars new_manager_info
          match copy_methods_onto self_type
            (iter_all_custom_queryset_methods queryset_info) [] with
          | .error (.incompleteDefn m) =>
              if !st1.finalIteration then ({ st1 with deferred := true }, .deferredRun)
              else (st1, .raised (.incompleteDefn m))
          | .error e => (st1, .raised e)
          | .ok members =>
              let final_info := { new_manager_info with names := members }
              let new_manager_sym : SymbolTableNode := ⟨.gdef, .typeInfo final_info, true⟩
              publish_new_manager_sym st1 ctx.name new_manager_sym

/-- The generic parameter of the as-manager shape: the innermost enclosing
class when it derives from the ORM's model base class, and explicit `Any`
otherwise; paired with the name used in the synthesized class name. -/
def as_manager_generic_param (scopeClasses : List TypeInfo) : MType × String :=
  match scopeClasses.getLast? with
  | some info =>
      if info.has_base MODEL_CLASS_FULLNAME then
        (MType.inst0 info.fullname info.name, info.name)
      else (MType.anyExplicit, "Any")
  | none => (MType.anyExplicit, "Any")

/-- The synthesized class name of the as-manager shape. -/
def as_manager_class_name (queryset_info : TypeInfo) (generic_param_name : String) : String :=
  queryset_info.name ++ "_AsManager_" ++ generic_param_name

/-- The class builder of the as-manager shape: exactly one base, the
canonical manager base class instantiated with the generic parameter. -/
def as_manager_new_typeinfo (cur_mod_id : String) (queryset_info django_manager_info : TypeInfo)
    (generic_param : MType) (generic_param_name : String) : TypeInfo :=
  new_typeinfo (as_manager_class_name queryset_info generic_param_name)
    [MType.inst1 django_manager_info.fullname django_manager_info.name generic_param]
    cur_mod_id

/-- The resolution stage of `create_manager_class_from_as_manager_method`:
the callee class itself is the queryset, plus the canonical manager base. -/
def ep2_resolution (ctx : DynamicClassDefCtx) :
    Except PluginExc (TypeInfo × TypeInfo) :=
  match resolve_callee_info_or_exception ctx with
  | .error e => .error e
  | .ok q =>
      match resolve_django_manager_info_or_exception ctx with
      | .error e => .error e
      | .ok d => .ok (q, d)

/-- `create_manager_class_from_as_manager_method`: resolve the queryset and
the manager base (deferring on incomplete definitions unless final),
compute the generic parameter from the enclosing scope, build the virtual
class, record it in the registry, copy the custom methods, publish. -/
def create_manager_class_from_as_manager_method
    (st : SemanalState) (ctx : DynamicClassDefCtx) : SemanalState × EntryOutcome :=
  match ep2_resolution ctx with
  | .error (.incompleteDefn m) =>
      if !st.finalIteration then ({ st with deferred := true }, .deferredRun)
      else (st, .raised (.incompleteDefn m))
  | .error e => (st, .raised e)
  | .ok (queryset_info, django_manager_info) =>
      let gp := as_manager_generic_param ctx.scopeClasses
      let new_manager_class_name := as_manager_class_name queryset_info gp.2
      let new_manager_info :=
        as_manager_new_typeinfo st.curModId queryset_info django_manager_info gp.1 gp.2
      match record_new_manager_info_fullname_into_metadata st.metadataStore
        ctx.callArgs new_manager_info.fullname
        django_manager_info queryset_info django_manager_info with
      | .error e => (st, .raised e)
      | .ok store1 =>
          let st1 := { st with metadataStore := store1 }
          let self_type := fill_typevars new_manager_info
          match copy_methods_onto self_type
            (iter_all_custom_queryset_methods queryset_info) [] with
          | .error (.incompleteDefn m) =>
              if !st1.finalIteration then ({ st1 with deferred := true }, .deferredRun)
              else (st1, .raised (.incompleteDefn m))
          | .error e => (st1, .raised e)
          | .ok members =>
              let final_info := { new_manager_info with names := members }
              let new_manager_sym : SymbolTableNode := ⟨.gdef, .typeInfo final_info, true⟩
              publish_new_manager_sym st1 new_manager_class_name new_manager_sym

/-- Split a character list at its last dot: `some (before, after)` when a
dot exists. -/
def rpartitionDotAux : List Char → Option (List Char × List Char)
  | [] => none
  | c :: t =>
      match rpartitionDotAux t with
      | some (pre, post) => some (c :: pre, post)
      | none => if c = '.' then some ([], t) else none

/-- Python `str.rpartition('.')` restricted to the two used components:
the part before the last dot and the part after it (and `("", s)` when
there is no dot, as `rpartition` then returns an empty head). -/
def rpartitionDot (s : String) : String × String :=
  match rpartitionDotAux s.toList with
  | some (pre, post) => (String.mk pre, String.mk post)
  | none => ("", s)

/-- The shape of `ctx.type` at the as-manager return-type hook: the two
isinstance asserts require a `CallableType` whose return type is an
`Instance`, whose class is the queryset. -/
inductive CtxTypeShape where
  | callableWithInstanceRet (queryset_info : TypeInfo)
  | callableOtherRet
  | notCallable
  deriving Repr

/-- The inputs a `MethodContext` and the type checker give the resolver:
the call's arguments (`ctx.context`), the callee type shape, the result
of `lookup_fully_qualified_typeinfo(MANAGER_CLASS_FULLNAME)`, and the
current module. -/
structure MethodCtx where
  callArgs : List Expr
  ctxTypeShape : CtxTypeShape
  lookupManagerInfo : Option TypeInfo
  currentModule : ModuleSym

/-- `instantiate_anonymous_queryset_from_as_manager`: recompute the
deterministic generated-manager fullname, look it up in the registry (a
miss raises `ValueError` unconditionally), split the recorded fullname,
assert its module is the current module, and substitute the instance of
the synthesized class found in the current module's globals. -/
def instantiate_anonymous_queryset_from_as_manager (store : MetaStore)
    (ctx : MethodCtx) : Except PluginExc MType :=
  match ctx.lookupManagerInfo with
  | none => .error .assertionError
  | some django_manager_info =>
      match ctx.ctxTypeShape with
      | .notCallable => .error .assertionError
      | .callableOtherRet => .error .assertionError
      | .callableWithInstanceRet queryset_info =>
          match get_generated_manager_fullname ctx.callArgs django_manager_info queryset_info with
          | .error e => .error e
          | .ok fullname =>
              let metadata := get_generated_managers_metadata store django_manager_info
              match alLookup metadata fullname with
              | none =>
                  .error (.valueError
                    (fullname ++ " is not present in generated managers list"))
              | some recorded =>
                  let module_name := (rpartitionDot recorded).1
                  let class_name := (rpartitionDot recorded).2
                  if module_name ≠ ctx.currentModule.fullname then .error .assertionError
                  else
                    match alLookup ctx.currentModule.names class_name with
                    | none => .error .keyError
                    | some sym =>
                        match sym.node with
                        | .typeInfo generated_manager_info =>
                            .ok (MType.inst0 generated_manager_info.fullname
                              generated_manager_info.name)
                        | _ => .error .assertionError

/-- The inputs an `AttributeContext` and its collaborators give the
request-user transform: the default attribute type, the looked-up
`AbstractBaseUser` and `AnonymousUser` class symbols, and the class symbol
of the configured `AUTH_USER_MODEL` (or `none` when it resolves to no
class type information). -/
structure AttributeCtx where
  defaultAttrType : MType
  abstractBaseUserInfo : Option TypeInfo
  anonymousUserInfo : Option TypeInfo
  authUserModelInfo : Option TypeInfo

/-- The stock `request.user` union shipped by the stubs:
`AbstractBaseUser | AnonymousUser`. -/
def stockUserUnion (abu anon : TypeInfo) : MType :=
  MType.union (MType.inst0 abu.fullname abu.name) (MType.inst0 anon.fullname anon.name)

/-- `set_auth_user_model_as_type_for_request_user`: return the default
attribute type unchanged when it is not the stock union or when the
configured user model has no class type information; otherwise the final
`return UnionType([Instance(user_info, []), ...])` reads the never-bound
local `user_info` and raises `NameError`. -/
def set_auth_user_model_as_type_for_request_user (ctx : AttributeCtx) :
    Except PluginExc MType :=
  match ctx.abstractBaseUserInfo, ctx.anonymousUserInfo with
  | some abu, some anon =>
      if !eqAsMypy ctx.defaultAttrType (stockUserUnion abu anon) then
        .ok ctx.defaultAttrType
      else
        match ctx.authUserModelInfo with
        | none => .ok ctx.defaultAttrType
        | some _ => .error .nameError
  | _, _ => .error .assertionError

/- Concrete fixtures: a small project with a custom queryset hierarchy
`QS <: BaseQS <: QuerySet`, a base manager `M`, the canonical manager
class, and a model class, used to instantiate the hypotheses of the
claim theorems. -/

def passThroughExternals : SemanalExternals :=
  ⟨fun _ _ => true, fun _ _ => true, fun _ _ => true⟩

def filterMethod : FuncDefM :=
  ⟨"filter", "django.db.models.query.QuerySet.filter", MType.anyExplicit, false⟩

def activeMethod : FuncDefM :=
  ⟨"active", "myapp.models.BaseQS.active", MType.anyExplicit, false⟩

def inactiveMethod : FuncDefM :=
  ⟨"inactive", "myapp.models.QS.inactive", MType.anyExplicit, false⟩

def pendingMethod : FuncDefM :=
  ⟨"pending", "myapp.models.QS.pending", MType.anyExplicit, true⟩

def querySetMroEntry : MroEntry :=
  ⟨QUERYSET_CLASS_FULLNAME, [("filter", .funcDef filterMethod)]⟩

def qsInfo : TypeInfo :=
  { name := "QS"
  , fullname := "myapp.models.QS"
  , bases := [MType.inst0 "myapp.models.BaseQS" "BaseQS"]
  , names := [("inactive", .funcDef inactiveMethod)]
  , mro :=
      [ ⟨"myapp.models.QS", [("inactive", .funcDef inactiveMethod)]⟩
      , ⟨"myapp.models.BaseQS",
          [("active", .funcDef activeMethod), ("tag", .otherMember "myapp.models.BaseQS.tag")]⟩
      , querySetMroEntry
      , ⟨"builtins.object", []⟩ ] }

def qsPendingInfo : TypeInfo :=
  { name := "QS"
  , fullname := "myapp.models.QS"
  , bases := [MType.inst0 QUERYSET_CLASS_FULLNAME "QuerySet"]
  , names := [("pending", .funcDef pendingMethod)]
  , mro :=
      [ ⟨"myapp.models.QS", [("pending", .funcDef pendingMethod)]⟩
      , querySetMroEntry
      , ⟨"builtins.object", []⟩ ] }

def mInfo : TypeInfo :=
  { name := "M"
  , fullname := "myapp.models.M"
  , bases := [MType.inst1 MANAGER_CLASS_FULLNAME "Manager" MType.anyExplicit]
  , names := []
  , mro := [⟨"myapp.models.M", []⟩, ⟨MANAGER_CLASS_FULLNAME, []⟩, ⟨"builtins.object", []⟩] }

def managerInfo : TypeInfo :=
  { name := "Manager"
  , fullname := MANAGER_CLASS_FULLNAME
  , bases := []
  , names := []
  , mro := [⟨MANAGER_CLASS_FULLNAME, []⟩, ⟨"builtins.object", []⟩] }

def modelInfo : TypeInfo :=
  { name := "MyModel"
  , fullname := "myapp.models.MyModel"
  , bases := [MType.inst0 MODEL_CLASS_FULLNAME "Model"]
  , names := []
  , mro := [⟨"myapp.models.MyModel", []⟩, ⟨MODEL_CLASS_FULLNAME, []⟩, ⟨"builtins.object", []⟩] }

def ctxOk : DynamicClassDefCtx :=
  { name := "NewManager"
  , calleeExprNode := some (.typeInfo mInfo)
  , callArgs := [.nameExpr "QS" "myapp.models.QS"]
  , lookupQueryset := some ⟨.gdef, .typeInfo qsInfo, false⟩
  , lookupManager := some ⟨.gdef, .typeInfo managerInfo, false⟩
  , scopeClasses := [] }

def ctxPendingCopy : DynamicClassDefCtx :=
  { ctxOk with lookupQueryset := some ⟨.gdef, .typeInfo qsPendingInfo, false⟩ }

def ctxPlaceholderQs : DynamicClassDefCtx :=
  { ctxOk with lookupQueryset := some ⟨.gdef, .placeholder "myapp.models.QS", false⟩ }

def staleSym : SymbolTableNode := ⟨.gdef, .var "myapp.models.NewManager", false⟩

def st0 : SemanalState :=
  { modules :=
      [ ⟨"myapp.models", []⟩
      , ⟨"other.mod", [("NewManager", staleSym)]⟩ ]
  , curModId := "myapp.models"
  , finalIteration := false
  , deferred := false
  , progress := false
  , missingNames := []
  , metadataStore := []
  , ext := passThroughExternals }

def c1SelfType : MType := fill_typevars (new_manager_typeinfo "myapp.models" ctxOk mInfo)

def c1Members : List (String × MemberNode) :=
  [ ("inactive", .funcDef { inactiveMethod with selfType := c1SelfType })
  , ("active", .funcDef { activeMethod with selfType := c1SelfType }) ]

/- C4: the claimed failure policy of the three resolvers. -/

/-- The tri-state "unready" shapes of a lookup answer: no symbol at all,
a symbol with no node, or a placeholder node. -/
def lookupUnready : Option SymbolTableNode → Bool
  | none => true
  | some sym =>
      match sym.node with
      | .noNode => true
      | .placeholder _ => true
      | _ => false

def isIncompleteResult : Except PluginExc TypeInfo → Bool
  | .error (.incompleteDefn _) => true
  | _ => false

def abuInfo : TypeInfo :=
  { name := "AbstractBaseUser"
  , fullname := "django.contrib.auth.base_user.AbstractBaseUser"
  , bases := []
  , names := []
  , mro := [⟨"django.contrib.auth.base_user.AbstractBaseUser", []⟩] }

def anonInfo : TypeInfo :=
  { name := "AnonymousUser"
  , fullname := "django.contrib.auth.models.AnonymousUser"
  , bases := []
  , names := []
  , mro := [⟨"django.contrib.auth.models.AnonymousUser", []⟩] }

def overriddenRequestCtx : AttributeCtx :=
  { defaultAttrType := MType.inst0 "myapp.models.MyModel" "MyModel"
  , abstractBaseUserInfo := some abuInfo
  , anonymousUserInfo := some anonInfo
  , authUserModelInfo := some modelInfo }

def c7Store : MetaStore :=
  [(MANAGER_CLASS_FULLNAME,
    [("django.db.models.manager.ManagerFromQS", "myapp.models.QS_AsManager_MyModel")])]

def c7GeneratedInfo : TypeInfo :=
  { name := "QS_AsManager_MyModel"
  , fullname := "myapp.models.QS_AsManager_MyModel"
  , bases := [MType.inst1 MANAGER_CLASS_FULLNAME "Manager"
      (MType.inst0 "myapp.models.MyModel" "MyModel")]
  , names := []
  , mro := [⟨"myapp.models.QS_AsManager_MyModel", []⟩] }

def c7Ctx : MethodCtx :=
  { callArgs := []
  , ctxTypeShape := .callableWithInstanceRet qsInfo
  , lookupManagerInfo := some managerInfo
  , currentModule :=
      ⟨"myapp.models",
        [("QS_AsManager_MyModel", ⟨.gdef, .typeInfo c7GeneratedInfo, true⟩)]⟩ }

def c8NewInfo : TypeInfo := new_typeinfo "NewManager" [] "myapp.models"

def c8NewSym : SymbolTableNode := ⟨.gdef, .typeInfo c8NewInfo, true⟩

/-- Where an incomplete-definition exception arises inside the
from-queryset entry point, replayed over the same stages the entry point
runs (resolution, then — when the registry key computation succeeds, as
the registry write then does — method copying); `some m` is the
exception's message. -/
def ep1_incomplete_msg (st : SemanalState) (ctx : DynamicClassDefCtx) : Option String :=
  match ep1_resolution ctx with
  | .error (.incompleteDefn m) => some m
  | .error _ => none
  | .ok (c, q, _) =>
      match get_generated_manager_fullname ctx.callArgs c q with
      | .error _ => none
      | .ok _ =>
          match copy_methods_onto (fill_typevars (new_manager_typeinfo st.curModId ctx c))
            (iter_all_custom_queryset_methods q) [] with
          | .error (.incompleteDefn m) => some m
          | _ => none

/-- The as-manager analogue of `ep1_incomplete_msg`. -/
def ep2_incomplete_msg (st : SemanalState) (ctx : DynamicClassDefCtx) : Option String :=
  match ep2_resolution ctx with
  | .error (.incompleteDefn m) => some m
  | .error _ => none
  | .ok (q, d) =>
      match get_generated_manager_fullname ctx.callArgs d q with
      | .error _ => none
      | .ok _ =>
          match copy_methods_onto
            (fill_typevars (as_manager_new_typeinfo st.curModId q d
              (as_manager_generic_param ctx.scopeClasses).1
              (as_manager_generic_param ctx.scopeClasses).2))
            (iter_all_custom_queryset_methods q) [] with
          | .error (.incompleteDefn m) => some m
          | _ => none

theorem alLookup_alUpdate_self {β : Type} (m : List (String × β)) (k : String) (v : β) :
    alLookup (alUpdate m k v) k = some v := by
  induction m with
  | nil => simp [alUpdate, alLookup]
  | cons p t ih =>
      obtain ⟨k', v'⟩ := p
      by_cases h : k' = k <;> simp [alUpdate, alLookup, h, ih]

theorem alUpdate_alUpdate_same {β : Type} (m : List (String × β)) (k : String) (v : β) :
    alUpdate (alUpdate m k v) k v = alUpdate m k v := by
  induction m with
  | nil => simp [alUpdate]
  | cons p t ih =>
      obtain ⟨k', v'⟩ := p
      by_cases h : k' = k <;> simp [alUpdate, h, ih]

theorem alKeyCount_alUpdate_of_le_one {β : Type} (m : List (String × β)) (k : String) (v : β)
    (h : alKeyCount m k ≤ 1) : alKeyCount (alUpdate m k v) k = 1 := by
  induction m with
  | nil => simp [alUpdate, alKeyCount]
  | cons p t ih =>
      obtain ⟨k', v'⟩ := p
      by_cases hk : k' = k
      · simp [alUpdate, alKeyCount, hk] at h ⊢
        omega
      · simp [alUpdate, alKeyCount, hk] at h ⊢
        exact ih h

theorem iterCustomMethodsAux_eq_takeWhile (l : List MroEntry) :
    iterCustomMethodsAux l =
      (l.takeWhile (fun e => e.fullname ≠ QUERYSET_CLASS_FULLNAME)).flatMap
        (fun e =>
          e.names.filterMap
            (fun p => match p.2 with
              | .funcDef f => some (p.1, f)
              | _ => none)) := by
  induction l with
  | nil => rfl
  | cons e rest ih =>
      by_cases h : e.fullname = QUERYSET_CLASS_FULLNAME <;>
        simp [iterCustomMethodsAux, List.takeWhile, h, ih]

theorem iter_all_eq_declaredCustomMethods (qs : TypeInfo) :
    iter_all_custom_queryset_methods qs = declaredCustomMethods qs :=
  iterCustomMethodsAux_eq_takeWhile qs.mro

/- Helper lemmas about `alLookup`/`alUpdate` and the copy loop. -/

theorem alLookup_alUpdate {β : Type} (m : List (String × β)) (k : String) (v : β) (j : String) :
    alLookup (alUpdate m k v) j = if j = k then some v else alLookup m j := by
  induction m with
  | nil =>
      by_cases h : j = k
      · subst h; simp [alUpdate, alLookup]
      · simp [alUpdate, alLookup, h, Ne.symm h]
  | cons p t ih =>
      obtain ⟨k', v'⟩ := p
      by_cases h1 : k' = k
      · subst h1
        by_cases h2 : j = k'
        · subst h2; simp [alUpdate, alLookup]
        · simp [alUpdate, alLookup, h2, Ne.symm h2]
      · by_cases h2 : k' = j
        · have h3 : ¬(j = k) := fun hh => h1 (h2.trans hh)
          simp [alUpdate, alLookup, h1, h2, h3]
        · simp [alUpdate, alLookup, h1, h2, ih]

theorem copy_methods_onto_lookup_isSome (self_type : MType)
    (ms : List (String × FuncDefM)) :
    ∀ (acc members : List (String × MemberNode)),
      copy_methods_onto self_type ms acc = .ok members →
      ∀ nm : String,
        (alLookup members nm).isSome
          ↔ ((alLookup acc nm).isSome ∨ nm ∈ ms.map Prod.fst) := by
  induction ms with
  | nil =>
      intro acc members h nm
      simp only [copy_methods_onto] at h
      cases h
      simp
  | cons p rest ih =>
      intro acc members h nm
      obtain ⟨n, f⟩ := p
      simp only [copy_methods_onto] at h
      cases hc : copy_method_or_incomplete_defn_exception self_type n f with
      | error e => rw [hc] at h; cases h
      | ok f2 =>
          rw [hc] at h
          have := ih (alUpdate acc n (.funcDef f2)) members h nm
          rw [this, alLookup_alUpdate]
          by_cases hn : nm = n <;> simp [hn]

theorem copy_method_ok_selfType (self_type : MType) (n : String) (f f2 : FuncDefM)
    (h : copy_method_or_incomplete_defn_exception self_type n f = .ok f2) :
    f2.selfType = self_type := by
  unfold copy_method_or_incomplete_defn_exception at h
  by_cases hb : f.bodyHasUnresolved
  · simp [hb] at h
  · simp [hb] at h
    rw [← h]

theorem copy_methods_onto_selfTypes (self_type : MType)
    (ms : List (String × FuncDefM)) :
    ∀ (acc members : List (String × MemberNode)),
      copy_methods_onto self_type ms acc = .ok members →
      (∀ nm nd, alLookup acc nm = some nd →
        ∃ f : FuncDefM, nd = .funcDef f ∧ f.selfType = self_type) →
      ∀ nm nd, alLookup members nm = some nd →
        ∃ f : FuncDefM, nd = .funcDef f ∧ f.selfType = self_type := by
  induction ms with
  | nil =>
      intro acc members h hacc nm nd hl
      simp only [copy_methods_onto] at h
      cases h
      exact hacc nm nd hl
  | cons p rest ih =>
      intro acc members h hacc nm nd hl
      obtain ⟨n, f⟩ := p
      simp only [copy_methods_onto] at h
      cases hc : copy_method_or_incomplete_defn_exception self_type n f with
      | error e => rw [hc] at h; cases h
      | ok f2 =>
          rw [hc] at h
          refine ih (alUpdate acc n (.funcDef f2)) members h ?_ nm nd hl
          intro nm' nd' hl'
          rw [alLookup_alUpdate] at hl'
          by_cases hn : nm' = n
          · rw [if_pos hn] at hl'
            cases hl'
            exact ⟨f2, rfl, copy_method_ok_selfType self_type n f f2 hc⟩
          · rw [if_neg hn] at hl'
            exact hacc nm' nd' hl'

/-- C1: for every (base-manager, queryset) pair, the synthesized class's
member table holds exactly the names of the queryset's query methods that
are not inherited from the ORM's base queryset class (the enumeration the
code walks equals the spec's "declared up to but excluding the base
queryset class" set), and every copied member is a function whose implicit
self parameter type is the synthesized class's own instantiated type. -/
theorem c1_copied_methods_exact (qs : TypeInfo) (self_type : MType)
    (members : List (String × MemberNode))
    (h : copy_methods_onto self_type (iter_all_custom_queryset_methods qs) [] = .ok members) :
    (iter_all_custom_queryset_methods qs = declaredCustomMethods qs)
    ∧ (∀ nm : String,
        (alLookup members nm).isSome ↔ nm ∈ (declaredCustomMethods qs).map Prod.fst)
    ∧ (∀ nm nd, alLookup members nm = some nd →
        ∃ f : FuncDefM, nd = .funcDef f ∧ f.selfType = self_type) := by
  refine ⟨iter_all_eq_declaredCustomMethods qs, ?_, ?_⟩
  · intro nm
    have := copy_methods_onto_lookup_isSome self_type
      (iter_all_custom_queryset_methods qs) [] members h nm
    rw [this, iter_all_eq_declaredCustomMethods qs]
    simp [alLookup]
  · exact copy_methods_onto_selfTypes self_type
      (iter_all_custom_queryset_methods qs) [] members h
      (by intro nm nd hl; simp [alLookup] at hl)

theorem c1_copied_methods_exact_witness :
    ((alLookup c1Members "active").isSome
        ↔ "active" ∈ (declaredCustomMethods qsInfo).map Prod.fst)
    ∧ ((alLookup c1Members "filter").isSome
        ↔ "filter" ∈ (declaredCustomMethods qsInfo).map Prod.fst) :=
  ⟨(c1_copied_methods_exact qsInfo c1SelfType c1Members (by rfl)).2.1 "active",
   (c1_copied_methods_exact qsInfo c1SelfType c1Members (by rfl)).2.1 "filter"⟩

/-- C2: the synthesized name is a deterministic function of its inputs:
`<BaseManagerName>From<QuerysetName>` without an override, the override
string verbatim when a second string argument is present, and
`<QuerysetName>_AsManager_<ParamName>` for the as-manager shape; equal
name inputs give equal generated fullnames. -/
theorem c2_deterministic_naming :
    (∀ (args : List Expr) (b q : TypeInfo), args.length ≤ 1 →
        get_generated_manager_fullname args b q =
          .ok ("django.db.models.manager" ++ "." ++ generate_from_queryset_name b q))
    ∧ (∀ (a : Expr) (rest : List Expr) (b q : TypeInfo) (v : String),
        get_generated_manager_fullname (a :: Expr.strExpr v :: rest) b q =
          .ok ("django.db.models.manager" ++ "." ++ v))
    ∧ (∀ (qs : TypeInfo) (scope : List TypeInfo),
        as_manager_class_name qs (as_manager_generic_param scope).2 =
          qs.name ++ "_AsManager_" ++ (as_manager_generic_param scope).2)
    ∧ (∀ (args : List Expr) (b q b' q' : TypeInfo),
        b.name = b'.name → q.name = q'.name →
        get_generated_manager_fullname args b q = get_generated_manager_fullname args b' q') := by
  refine ⟨?_, ?_, ?_, ?_⟩
  · intro args b q hlen
    unfold get_generated_manager_fullname generate_from_queryset_name
    rw [if_neg (by omega)]
  · intro a rest b q v
    have h1 : (a :: Expr.strExpr v :: rest)[1]? = some (Expr.strExpr v) := by simp
    unfold get_generated_manager_fullname
    rw [if_pos (by simp), h1]
  · intro qs scope
    rfl
  · intro args b q b' q' hb hq
    unfold get_generated_manager_fullname
    rw [hb, hq]

theorem c2_deterministic_naming_witness :
    get_generated_manager_fullname ([] : List Expr) mInfo qsInfo =
      .ok ("django.db.models.manager" ++ "." ++ generate_from_queryset_name mInfo qsInfo) :=
  c2_deterministic_naming.1 [] mInfo qsInfo (by decide)

/-- C4 counterexample: the claim says a name resolving to a placeholder
raises the incomplete-definition exception, but the queryset-argument
resolver raises the fatal `BoundNameNotFound` on a placeholder. -/
theorem c4_placeholder_queryset_counterexample :
    resolve_passed_queryset_info_or_exception ctxPlaceholderQs
        = .error (.boundNameNotFound "myapp.models.QS")
      ∧ isIncompleteResult (resolve_passed_queryset_info_or_exception ctxPlaceholderQs) = false :=
  ⟨rfl, rfl⟩

/-- C4 amended: only the callee resolver follows the claimed policy for
placeholders (and crashes with `AttributeError` when the callee resolves
to nothing, while formatting the exception message); the queryset-argument
and manager-base resolvers raise the fatal `BoundNameNotFound` for all
three unready shapes — missing symbol, missing node, and placeholder
alike. -/
theorem c4_resolver_exception_policy :
    (∀ (ctx : DynamicClassDefCtx) (fn : String),
        ctx.calleeExprNode = some (.placeholder fn) →
        resolve_callee_info_or_exception ctx =
          .error (.incompleteDefn
            ("Definition of base manager " ++ fn ++ " is incomplete.")))
    ∧ (∀ ctx : DynamicClassDefCtx, ctx.calleeExprNode = none →
        resolve_callee_info_or_exception ctx = .error .attributeError)
    ∧ (∀ (ctx : DynamicClassDefCtx) (n fn : String),
        ctx.callArgs.head? = some (.nameExpr n fn) →
        lookupUnready ctx.lookupQueryset = true →
        resolve_passed_queryset_info_or_exception ctx = .error (.boundNameNotFound fn))
    ∧ (∀ ctx : DynamicClassDefCtx, lookupUnready ctx.lookupManager = true →
        resolve_django_manager_info_or_exception ctx =
          .error (.boundNameNotFound MANAGER_CLASS_FULLNAME)) := by
  refine ⟨?_, ?_, ?_, ?_⟩
  · intro ctx fn h
    unfold resolve_callee_info_or_exception
    rw [h]
  · intro ctx h
    unfold resolve_callee_info_or_exception
    rw [h]
  · intro ctx n fn hhead hun
    unfold resolve_passed_queryset_info_or_exception
    rw [hhead]
    cases hq : ctx.lookupQueryset with
    | none => rfl
    | some sym =>
        rw [hq] at hun
        obtain ⟨kd, node, pg⟩ := sym
        unfold lookupUnready at hun
        cases node <;> simp at hun <;> rfl
  · intro ctx hun
    unfold resolve_django_manager_info_or_exception
    cases hq : ctx.lookupManager with
    | none => rfl
    | some sym =>
        rw [hq] at hun
        obtain ⟨kd, node, pg⟩ := sym
        unfold lookupUnready at hun
        cases node <;> simp at hun <;> rfl

theorem c4_resolver_exception_policy_witness :
    resolve_django_manager_info_or_exception
        { ctxOk with lookupManager := some ⟨.gdef, .placeholder MANAGER_CLASS_FULLNAME, false⟩ }
      = .error (.boundNameNotFound MANAGER_CLASS_FULLNAME) :=
  c4_resolver_exception_policy.2.2.2
    { ctxOk with lookupManager := some ⟨.gdef, .placeholder MANAGER_CLASS_FULLNAME, false⟩ }
    rfl

/-- C6: the metadata registry is an idempotent upsert keyed on the
deterministic name: recording the same (key, value) pair twice leaves the
store exactly as one record left it, a lookup after a record returns
exactly the recorded fullname, and (when the dict held at most one binding
for the key, as a Python dict always does) the registry stays
single-valued for that key. -/
theorem c6_registry_idempotent (store store1 : MetaStore) (args : List Expr)
    (new_fullname key : String) (c q d : TypeInfo)
    (hkey : get_generated_manager_fullname args c q = .ok key)
    (hwf : alKeyCount (get_generated_managers_metadata store d) key ≤ 1)
    (hrec : record_new_manager_info_fullname_into_metadata store args new_fullname c q d
      = .ok store1) :
    record_new_manager_info_fullname_into_metadata store1 args new_fullname c q d = .ok store1
    ∧ alLookup (get_generated_managers_metadata store1 d) key = some new_fullname
    ∧ alKeyCount (get_generated_managers_metadata store1 d) key = 1 := by
  unfold record_new_manager_info_fullname_into_metadata at hrec ⊢
  rw [hkey] at hrec ⊢
  dsimp only at hrec ⊢
  cases hrec
  have hmeta : get_generated_managers_metadata
      (alUpdate store d.fullname
        (alUpdate (get_generated_managers_metadata store d) key new_fullname)) d
      = alUpdate (get_generated_managers_metadata store d) key new_fullname := by
    unfold get_generated_managers_metadata
    rw [alLookup_alUpdate_self]
    rfl
  refine ⟨?_, ?_, ?_⟩
  · rw [hmeta, alUpdate_alUpdate_same, alUpdate_alUpdate_same]
  · rw [hmeta, alLookup_alUpdate_self]
  · rw [hmeta]
    exact alKeyCount_alUpdate_of_le_one _ key new_fullname hwf

theorem c6_registry_idempotent_witness :
    record_new_manager_info_fullname_into_metadata
        [(MANAGER_CLASS_FULLNAME,
          [("django.db.models.manager.MFromQS", "myapp.models.NewManager")])]
        [] "myapp.models.NewManager" mInfo qsInfo managerInfo
      = .ok [(MANAGER_CLASS_FULLNAME,
          [("django.db.models.manager.MFromQS", "myapp.models.NewManager")])]
    ∧ alLookup
        (get_generated_managers_metadata
          [(MANAGER_CLASS_FULLNAME,
            [("django.db.models.manager.MFromQS", "myapp.models.NewManager")])]
          managerInfo)
        "django.db.models.manager.MFromQS" = some "myapp.models.NewManager"
    ∧ alKeyCount
        (get_generated_managers_metadata
          [(MANAGER_CLASS_FULLNAME,
            [("django.db.models.manager.MFromQS", "myapp.models.NewManager")])]
          managerInfo)
        "django.db.models.manager.MFromQS" = 1 :=
  c6_registry_idempotent [] _ [] "myapp.models.NewManager"
    "django.db.models.manager.MFromQS" mInfo qsInfo managerInfo
    rfl (by decide) rfl

/-- C9: for the as-manager shape, the synthesized class's base list is
exactly one element — the canonical manager base class instantiated with
one generic argument — and that argument is the innermost enclosing
class's own instance type when that class derives from the ORM's model
base class, and explicit `Any` otherwise. -/
theorem c9_as_manager_bases (cur : String) (qs dmi : TypeInfo) (scope : List TypeInfo) :
    ((as_manager_new_typeinfo cur qs dmi
        (as_manager_generic_param scope).1 (as_manager_generic_param scope).2).bases
      = [MType.inst1 dmi.fullname dmi.name (as_manager_generic_param scope).1])
    ∧ (∀ last : TypeInfo, scope.getLast? = some last →
        last.has_base MODEL_CLASS_FULLNAME = true →
        (as_manager_generic_param scope).1 = MType.inst0 last.fullname last.name)
    ∧ (∀ last : TypeInfo, scope.getLast? = some last →
        last.has_base MODEL_CLASS_FULLNAME = false →
        (as_manager_generic_param scope).1 = MType.anyExplicit)
    ∧ (scope = [] → (as_manager_generic_param scope).1 = MType.anyExplicit) := by
  refine ⟨rfl, ?_, ?_, ?_⟩
  · intro last hlast hbase
    simp [as_manager_generic_param, hlast, hbase]
  · intro last hlast hbase
    simp [as_manager_generic_param, hlast, hbase]
  · intro hnil
    subst hnil
    rfl

theorem c9_as_manager_bases_witness :
    ((as_manager_new_typeinfo "myapp.models" qsInfo managerInfo
        (as_manager_generic_param [modelInfo]).1 (as_manager_generic_param [modelInfo]).2).bases
      = [MType.inst1 MANAGER_CLASS_FULLNAME "Manager" (as_manager_generic_param [modelInfo]).1])
    ∧ (as_manager_generic_param [modelInfo]).1
        = MType.inst0 "myapp.models.MyModel" "MyModel" :=
  ⟨(c9_as_manager_bases "myapp.models" qsInfo managerInfo [modelInfo]).1,
   (c9_as_manager_bases "myapp.models" qsInfo managerInfo [modelInfo]).2.1 modelInfo rfl
     (by decide)⟩

/-- C10: the request-user transform returns the default attribute type
unchanged whenever the default is not exactly the stock
`AbstractBaseUser | AnonymousUser` union, and also whenever the
configured user model resolves to no class type information. -/
theorem c10_request_user_default_preserved (ctx : AttributeCtx) (abu anon : TypeInfo)
    (habu : ctx.abstractBaseUserInfo = some abu)
    (hanon : ctx.anonymousUserInfo = some anon) :
    (eqAsMypy ctx.defaultAttrType (stockUserUnion abu anon) = false →
      set_auth_user_model_as_type_for_request_user ctx = .ok ctx.defaultAttrType)
    ∧ (ctx.authUserModelInfo = none →
      set_auth_user_model_as_type_for_request_user ctx = .ok ctx.defaultAttrType) := by
  constructor
  · intro hne
    unfold set_auth_user_model_as_type_for_request_user
    rw [habu, hanon]
    simp [hne]
  · intro hnone
    unfold set_auth_user_model_as_type_for_request_user
    rw [habu, hanon]
    cases he : eqAsMypy ctx.defaultAttrType (stockUserUnion abu anon) <;>
      simp [he, hnone]

theorem c10_request_user_default_preserved_witness :
    set_auth_user_model_as_type_for_request_user overriddenRequestCtx
      = .ok overriddenRequestCtx.defaultAttrType :=
  (c10_request_user_default_preserved overriddenRequestCtx abuInfo anonInfo rfl rfl).1
    (by decide)

/-- C7: in the return-type resolver, a computed deterministic name absent
from the registry raises an unconditional `ValueError` (the checker phase
has no deferral path), and when the name is present the recorded
fullname's module is asserted equal to the current module before the
synthesized class's instantiated type is substituted as the result. -/
theorem c7_resolver_registry_miss_fatal (store : MetaStore) (ctx : MethodCtx)
    (dmi qs : TypeInfo) (key : String)
    (hmi : ctx.lookupManagerInfo = some dmi)
    (hshape : ctx.ctxTypeShape = .callableWithInstanceRet qs)
    (hkey : get_generated_manager_fullname ctx.callArgs dmi qs = .ok key) :
    (alLookup (get_generated_managers_metadata store dmi) key = none →
      instantiate_anonymous_queryset_from_as_manager store ctx =
        .error (.valueError (key ++ " is not present in generated managers list")))
    ∧ (∀ recorded : String,
        alLookup (get_generated_managers_metadata store dmi) key = some recorded →
        ((rpartitionDot recorded).1 ≠ ctx.currentModule.fullname →
          instantiate_anonymous_queryset_from_as_manager store ctx = .error .assertionError)
        ∧ (∀ (kd : NodeKind) (gi : TypeInfo) (pg : Bool),
            (rpartitionDot recorded).1 = ctx.currentModule.fullname →
            alLookup ctx.currentModule.names (rpartitionDot recorded).2
              = some ⟨kd, .typeInfo gi, pg⟩ →
            instantiate_anonymous_queryset_from_as_manager store ctx =
              .ok (MType.inst0 gi.fullname gi.name))) := by
  constructor
  · intro hmiss
    simp only [instantiate_anonymous_queryset_from_as_manager, hmi, hshape, hkey, hmiss]
  · intro recorded hhit
    constructor
    · intro hne
      simp only [instantiate_anonymous_queryset_from_as_manager, hmi, hshape, hkey, hhit]
      rw [if_pos hne]
    · intro kd gi pg heq hlook
      simp only [instantiate_anonymous_queryset_from_as_manager, hmi, hshape, hkey, hhit]
      rw [if_neg (fun hh => hh heq), hlook]

theorem c7_resolver_registry_miss_fatal_witness :
    instantiate_anonymous_queryset_from_as_manager c7Store c7Ctx
      = .ok (MType.inst0 "myapp.models.QS_AsManager_MyModel" "QS_AsManager_MyModel") :=
  ((c7_resolver_registry_miss_fatal c7Store c7Ctx managerInfo qsInfo
      "django.db.models.manager.ManagerFromQS" rfl rfl rfl).2
    "myapp.models.QS_AsManager_MyModel" (by decide)).2
    .gdef c7GeneratedInfo true (by decide) (by decide)

/- Facts about `add_symbol_table_node`, the module map, and the shared
publication tail, used by the deferral-behaviour claims. -/

theorem add_symbol_table_node_cases (ext : SemanalExternals)
    (names : List (String × SymbolTableNode)) (name : String) (symbol : SymbolTableNode)
    (context : Option Unit) (canDefer : Bool) (missing : List String) :
    (add_symbol_table_node ext names name symbol context canDefer missing).deferCalled
        = (isPlaceholderSym symbol.node && canDefer)
    ∧ ((add_symbol_table_node ext names name symbol context canDefer missing).added = false →
        (add_symbol_table_node ext names name symbol context canDefer missing).table = names
        ∧ (add_symbol_table_node ext names name symbol context canDefer missing).progress = false)
    ∧ ((add_symbol_table_node ext names name symbol context canDefer missing).added = true →
        (add_symbol_table_node ext names name symbol context canDefer missing).table
            = alUpdate names name symbol
        ∧ (add_symbol_table_node ext names name symbol context canDefer missing).progress
            = true) := by
  rcases hE : add_symbol_table_node ext names name symbol context canDefer missing
    with ⟨t, a, p, d, r1, r2⟩
  simp only [add_symbol_table_node] at hE
  split at hE
  · split at hE
    · injection hE with h1 h2 h3 h4 h5 h6
      subst h1; subst h2; subst h3; subst h4
      exact ⟨rfl, fun _ => ⟨rfl, rfl⟩, fun hh => nomatch hh⟩
    · split at hE
      · injection hE with h1 h2 h3 h4 h5 h6
        subst h1; subst h2; subst h3; subst h4
        exact ⟨rfl, fun _ => ⟨rfl, rfl⟩, fun hh => nomatch hh⟩
      · injection hE with h1 h2 h3 h4 h5 h6
        subst h1; subst h2; subst h3; subst h4
        exact ⟨rfl, fun _ => ⟨rfl, rfl⟩, fun hh => nomatch hh⟩
    · injection hE with h1 h2 h3 h4 h5 h6
      subst h1; subst h2; subst h3; subst h4
      exact ⟨rfl, fun _ => ⟨rfl, rfl⟩, fun hh => nomatch hh⟩
  · split at hE
    · injection hE with h1 h2 h3 h4 h5 h6
      subst h1; subst h2; subst h3; subst h4
      exact ⟨rfl, fun _ => ⟨rfl, rfl⟩, fun hh => nomatch hh⟩
    · injection hE with h1 h2 h3 h4 h5 h6
      subst h1; subst h2; subst h3; subst h4
      refine ⟨rfl, ?_, fun _ => ⟨rfl, rfl⟩⟩
      intro hh
      simp at hh

theorem replaceModuleNames_find (ms : List ModuleSym) (fn : String) :
    replaceModuleNames ms fn
        (((ms.find? (fun m => m.fullname = fn)).map ModuleSym.names).getD []) = ms := by
  induction ms with
  | nil => rfl
  | cons m rest ih =>
      by_cases h : m.fullname = fn
      · rw [List.find?_cons_of_pos _ (by simp [h])]
        simp only [replaceModuleNames, if_pos h]
        rfl
      · rw [List.find?_cons_of_neg _ (by simp [h])]
        simp only [replaceModuleNames, if_neg h]
        rw [ih]

theorem setCurrentGlobals_currentGlobals (st : SemanalState) :
    (setCurrentGlobals st (currentGlobals st)).modules = st.modules :=
  replaceModuleNames_find st.modules st.curModId

theorem mem_replaceModuleNames_of_ne (ms : List ModuleSym) (fn : String)
    (t : List (String × SymbolTableNode)) (m : ModuleSym)
    (hm : m ∈ ms) (hne : m.fullname ≠ fn) : m ∈ replaceModuleNames ms fn t := by
  induction ms with
  | nil => cases hm
  | cons m0 rest ih =>
      rcases List.mem_cons.mp hm with rfl | hmem
      · simp only [replaceModuleNames, if_neg hne]
        exact List.mem_cons.mpr (Or.inl rfl)
      · by_cases h0 : m0.fullname = fn
        · simp only [replaceModuleNames, if_pos h0]
          exact List.mem_cons_of_mem _ hmem
        · simp only [replaceModuleNames, if_neg h0]
          exact List.mem_cons_of_mem _ (ih hmem)

theorem publish_deferredRun_state (st : SemanalState) (name : String) (sym : SymbolTableNode)
    (h : (publish_new_manager_sym st name sym).2 = .deferredRun) :
    (publish_new_manager_sym st name sym).1.modules = st.modules
    ∧ st.finalIteration = false := by
  have hspec := add_symbol_table_node_cases st.ext (currentGlobals st) name sym
    none true st.missingNames
  by_cases hc :
      ((!(add_symbol_table_node st.ext (currentGlobals st) name sym none true
          st.missingNames).added && !st.finalIteration) = true)
  · have hc' := hc
    simp only [Bool.and_eq_true, Bool.not_eq_eq_eq_not, Bool.not_true] at hc'
    obtain ⟨hadd, hfin⟩ := hc'
    refine ⟨?_, hfin⟩
    simp only [publish_new_manager_sym]
    rw [if_pos hc]
    simp only [hadd, Bool.false_eq_true, if_false]
    rw [(hspec.2.1 hadd).1]
    exact setCurrentGlobals_currentGlobals st
  · exfalso
    simp only [publish_new_manager_sym] at h
    rw [if_neg hc] at h
    cases h

theorem publish_ne_raised (st : SemanalState) (name : String) (sym : SymbolTableNode)
    (e : PluginExc) : (publish_new_manager_sym st name sym).2 ≠ .raised e := by
  simp only [publish_new_manager_sym]
  split <;> simp

/-- C8: after a successful forced insertion, every entry of every other
already-analyzed module whose node fullname matches the replaced (and
identically named) class's fullname is repointed at the newly inserted
symbol, the other entries being kept; when the insertion did not happen
and the final-iteration flag is unset another pass is requested, and on
the final pass no further retry is requested. -/
theorem c8_forced_insert_repoint_and_retry (st : SemanalState) (name : String)
    (sym : SymbolTableNode) (hnp : isPlaceholderSym sym.node = false) :
    ((add_symbol_table_node st.ext (currentGlobals st) name sym none true
          st.missingNames).added = true →
      ∀ m : ModuleSym, m ∈ st.modules → m.fullname ≠ st.curModId →
        (⟨m.fullname, m.names.map (fun p =>
            if symNodeFullname p.2.node == symNodeFullname sym.node
            then (p.1, sym) else p)⟩ : ModuleSym)
          ∈ (publish_new_manager_sym st name sym).1.modules)
    ∧ ((add_symbol_table_node st.ext (currentGlobals st) name sym none true
          st.missingNames).added = false → st.finalIteration = false →
        (publish_new_manager_sym st name sym).2 = .deferredRun)
    ∧ ((add_symbol_table_node st.ext (currentGlobals st) name sym none true
          st.missingNames).added = false → st.finalIteration = true →
        (publish_new_manager_sym st name sym).2 = .completed
        ∧ (publish_new_manager_sym st name sym).1.deferred = st.deferred) := by
  have hspec := add_symbol_table_node_cases st.ext (currentGlobals st) name sym
    none true st.missingNames
  refine ⟨?_, ?_, ?_⟩
  · intro hadd m hm hne
    simp only [publish_new_manager_sym, hadd, Bool.not_true, Bool.false_and,
      Bool.false_eq_true, if_false, if_true]
    have hmem2 : m ∈ replaceModuleNames st.modules st.curModId
        (add_symbol_table_node st.ext (currentGlobals st) name sym none true
          st.missingNames).table :=
      mem_replaceModuleNames_of_ne st.modules st.curModId _ m hm hne
    have hmap := List.mem_map_of_mem
      (fun m : ModuleSym =>
        if m.fullname = st.curModId then m
        else { m with names := m.names.map (fun p =>
          if symNodeFullname p.2.node == symNodeFullname sym.node
          then (p.1, sym) else p) }) hmem2
    dsimp only at hmap
    rw [if_neg hne] at hmap
    exact hmap
  · intro hadd hfin
    simp only [publish_new_manager_sym, hadd, hfin, Bool.not_false, Bool.true_and, if_true]
  · intro hadd hfin
    simp only [publish_new_manager_sym, hadd, hfin, Bool.not_true, Bool.and_false,
      Bool.false_eq_true, if_false]
    refine ⟨trivial, ?_⟩
    simp only [setCurrentGlobals, hspec.1, hnp, Bool.false_and, Bool.or_false]

theorem c8_forced_insert_repoint_and_retry_witness :
    (⟨"other.mod", [("NewManager", staleSym)].map (fun p =>
        if symNodeFullname p.2.node == symNodeFullname c8NewSym.node
        then (p.1, c8NewSym) else p)⟩ : ModuleSym)
      ∈ (publish_new_manager_sym st0 "NewManager" c8NewSym).1.modules :=
  (c8_forced_insert_repoint_and_retry st0 "NewManager" c8NewSym rfl).1 rfl
    ⟨"other.mod", [("NewManager", staleSym)]⟩ (by decide) (by decide)

/-- C3 counterexample: a from-queryset run whose method copying defers
(the queryset's only method body is unresolved) leaves the registry entry
on the base manager's metadata visible: the run ends in a deferral, yet
the metadata store has changed and already maps the deterministic key to
the synthesized fullname. -/
theorem c3_deferral_registry_write_counterexample :
    (create_new_manager_class_from_from_queryset_method st0 ctxPendingCopy).2 = .deferredRun
    ∧ (create_new_manager_class_from_from_queryset_method st0 ctxPendingCopy).1.metadataStore
        ≠ st0.metadataStore
    ∧ alLookup
        (get_generated_managers_metadata
          (create_new_manager_class_from_from_queryset_method st0 ctxPendingCopy).1.metadataStore
          managerInfo)
        "django.db.models.manager.MFromQS" = some "myapp.models.NewManager" := by
  refine ⟨by decide, by decide, by decide⟩

/-- C3 amended: a synthesis run of either entry point that ends in a
deferral changes no symbol-table binding (the analyzed modules are left
exactly as they were); the registry write on the base manager's metadata,
however, happens before method copying and may remain visible after a
deferral. -/
theorem c3_deferral_changes_no_symbol_table :
    (∀ (st : SemanalState) (ctx : DynamicClassDefCtx),
        (create_new_manager_class_from_from_queryset_method st ctx).2 = .deferredRun →
        (create_new_manager_class_from_from_queryset_method st ctx).1.modules = st.modules)
    ∧ (∀ (st : SemanalState) (ctx : DynamicClassDefCtx),
        (create_manager_class_from_as_manager_method st ctx).2 = .deferredRun →
        (create_manager_class_from_as_manager_method st ctx).1.modules = st.modules) := by
  constructor
  · intro st ctx h
    unfold create_new_manager_class_from_from_queryset_method at h ⊢
    cases hres : ep1_resolution ctx with
    | error e =>
        rw [hres] at h
        cases e <;> cases hfin : st.finalIteration <;> simp [hfin] at h ⊢
    | ok val =>
        obtain ⟨c, q, d⟩ := val
        rw [hres] at h
        dsimp only at h ⊢
        cases hrec : record_new_manager_info_fullname_into_metadata st.metadataStore
            ctx.callArgs (new_manager_typeinfo st.curModId ctx c).fullname c q d with
        | error e =>
            rw [hrec] at h
        | ok store1 =>
            rw [hrec] at h
            dsimp only at h ⊢
            cases hcopy : copy_methods_onto
                (fill_typevars (new_manager_typeinfo st.curModId ctx c))
                (iter_all_custom_queryset_methods q) [] with
            | error e =>
                rw [hcopy] at h
                cases e <;> cases hfin : st.finalIteration <;> simp [hfin] at h ⊢
            | ok members =>
                rw [hcopy] at h
                dsimp only at h
                exact (publish_deferredRun_state _ _ _ h).1
  · intro st ctx h
    unfold create_manager_class_from_as_manager_method at h ⊢
    cases hres : ep2_resolution ctx with
    | error e =>
        rw [hres] at h
        cases e <;> cases hfin : st.finalIteration <;> simp [hfin] at h ⊢
    | ok val =>
        obtain ⟨q, d⟩ := val
        rw [hres] at h
        dsimp only at h ⊢
        cases hrec : record_new_manager_info_fullname_into_metadata st.metadataStore
            ctx.callArgs
            (as_manager_new_typeinfo st.curModId q d
              (as_manager_generic_param ctx.scopeClasses).1
              (as_manager_generic_param ctx.scopeClasses).2).fullname d q d with
        | error e =>
            rw [hrec] at h
        | ok store1 =>
            rw [hrec] at h
            dsimp only at h ⊢
            cases hcopy : copy_methods_onto
                (fill_typevars
                  (as_manager_new_typeinfo st.curModId q d
                    (as_manager_generic_param ctx.scopeClasses).1
                    (as_manager_generic_param ctx.scopeClasses).2))
                (iter_all_custom_queryset_methods q) [] with
            | error e =>
                rw [hcopy] at h
                cases e <;> cases hfin : st.finalIteration <;> simp [hfin] at h ⊢
            | ok members =>
                rw [hcopy] at h
                dsimp only at h
                exact (publish_deferredRun_state _ _ _ h).1

theorem c3_deferral_changes_no_symbol_table_witness :
    (create_new_manager_class_from_from_queryset_method st0 ctxPendingCopy).1.modules
      = st0.modules :=
  c3_deferral_changes_no_symbol_table.1 st0 ctxPendingCopy (by decide)

/-- C5: whenever an incomplete-definition exception arises inside either
dynamic-class entry point, it is caught at the top of the entry point and
converted into a deferral when the final-iteration flag is unset; when
the flag is set the exception propagates out of the entry point. -/
theorem c5_incomplete_caught_and_converted :
    (∀ (st : SemanalState) (ctx : DynamicClassDefCtx) (m : String),
        ep1_incomplete_msg st ctx = some m →
        (st.finalIteration = false →
          (create_new_manager_class_from_from_queryset_method st ctx).2 = .deferredRun)
        ∧ (st.finalIteration = true →
          (create_new_manager_class_from_from_queryset_method st ctx).2
            = .raised (.incompleteDefn m)))
    ∧ (∀ (st : SemanalState) (ctx : DynamicClassDefCtx) (m : String),
        ep2_incomplete_msg st ctx = some m →
        (st.finalIteration = false →
          (create_manager_class_from_as_manager_method st ctx).2 = .deferredRun)
        ∧ (st.finalIteration = true →
          (create_manager_class_from_as_manager_method st ctx).2
            = .raised (.incompleteDefn m))) := by
  constructor
  · intro st ctx m hmsg
    unfold ep1_incomplete_msg at hmsg
    unfold create_new_manager_class_from_from_queryset_method
    cases hres : ep1_resolution ctx with
    | error e =>
        rw [hres] at hmsg
        cases e with
        | incompleteDefn m2 =>
            simp at hmsg
            subst hmsg
            constructor
            · intro hfin
              simp [hfin]
            · intro hfin
              simp [hfin]
        | boundNameNotFound n => simp at hmsg
        | assertionError => simp at hmsg
        | attributeError => simp at hmsg
        | valueError m2 => simp at hmsg
        | keyError => simp at hmsg
        | nameError => simp at hmsg
    | ok val =>
        obtain ⟨c, q, d⟩ := val
        rw [hres] at hmsg
        dsimp only at hmsg ⊢
        cases hkey : get_generated_manager_fullname ctx.callArgs c q with
        | error e =>
            rw [hkey] at hmsg
            simp at hmsg
        | ok key =>
            rw [hkey] at hmsg
            dsimp only at hmsg
            simp only [record_new_manager_info_fullname_into_metadata, hkey]
            cases hcopy : copy_methods_onto
                (fill_typevars (new_manager_typeinfo st.curModId ctx c))
                (iter_all_custom_queryset_methods q) [] with
            | error e =>
                rw [hcopy] at hmsg
                cases e with
                | incompleteDefn m2 =>
                    simp at hmsg
                    subst hmsg
                    constructor
                    · intro hfin
                      simp [hfin]
                    · intro hfin
                      simp [hfin]
                | boundNameNotFound n => simp at hmsg
                | assertionError => simp at hmsg
                | attributeError => simp at hmsg
                | valueError m2 => simp at hmsg
                | keyError => simp at hmsg
                | nameError => simp at hmsg
            | ok members =>
                rw [hcopy] at hmsg
                simp at hmsg
  · intro st ctx m hmsg
    unfold ep2_incomplete_msg at hmsg
    unfold create_manager_class_from_as_manager_method
    cases hres : ep2_resolution ctx with
    | error e =>
        rw [hres] at hmsg
        cases e with
        | incompleteDefn m2 =>
            simp at hmsg
            subst hmsg
            constructor
            · intro hfin
              simp [hfin]
            · intro hfin
              simp [hfin]
        | boundNameNotFound n => simp at hmsg
        | assertionError => simp at hmsg
        | attributeError => simp at hmsg
        | valueError m2 => simp at hmsg
        | keyError => simp at hmsg
        | nameError => simp at hmsg
    | ok val =>
        obtain ⟨q, d⟩ := val
        rw [hres] at hmsg
        dsimp only at hmsg ⊢
        cases hkey : get_generated_manager_fullname ctx.callArgs d q with
        | error e =>
            rw [hkey] at hmsg
            simp at hmsg
        | ok key =>
            rw [hkey] at hmsg
            dsimp only at hmsg
            simp only [record_new_manager_info_fullname_into_metadata, hkey]
            cases hcopy : copy_methods_onto
                (fill_typevars (as_manager_new_typeinfo st.curModId q d
                  (as_manager_generic_param ctx.scopeClasses).1
                  (as_manager_generic_param ctx.scopeClasses).2))
                (iter_all_custom_queryset_methods q) [] with
            | error e =>
                rw [hcopy] at hmsg
                cases e with
                | incompleteDefn m2 =>
                    simp at hmsg
                    subst hmsg
                    constructor
                    · intro hfin
                      simp [hfin]
                    · intro hfin
                      simp [hfin]
                | boundNameNotFound n => simp at hmsg
                | assertionError => simp at hmsg
                | attributeError => simp at hmsg
                | valueError m2 => simp at hmsg
                | keyError => simp at hmsg
                | nameError => simp at hmsg
            | ok members =>
                rw [hcopy] at hmsg
                simp at hmsg

theorem c5_incomplete_caught_and_converted_witness :
    (create_new_manager_class_from_from_queryset_method st0 ctxPendingCopy).2
      = .deferredRun :=
  (c5_incomplete_caught_and_converted.1 st0 ctxPendingCopy
      "Method myapp.models.QS.pending is not ready to be copied." (by decide)).1 rfl

end DjangoPlugin
